import Mathlib

/-!
Verification development for the `egui_virtual_list` windowing core
(`crates/egui_virtual_list/src/lib.rs`).

Embedding choices:
* `usize` is modelled as `Nat` (no wraparound; `usize::MAX` is `usizeMax`).
* `f32` coordinates are modelled exactly as `Rat`; the claims under study are
  about control flow and the algebraic update formulas, not about rounding.
* The egui `Ui` interactions are modelled at the interface boundary: the
  caller supplies the available width, the visible rectangle's vertical
  extent in content-local coordinates (the value computed at line 70 of the
  source), and a render callback that reports, for an item start index, the
  number of items consumed together with the measured rectangle already
  translated into content-local coordinates (the translation at line 101).
* The measure loop (source lines 96-144) is a fuel-indexed recursion; `none`
  means the fuel was exhausted before the loop reached one of its exits.
-/

/-- Exact model of `egui::Vec2` (components as rationals). -/
structure Vec2 where
  x : Rat
  y : Rat
deriving DecidableEq, Repr

def Vec2.zero : Vec2 := ⟨0, 0⟩

/-- Exact model of `egui::Rect` via its corner coordinates. -/
structure Rect where
  minX : Rat
  minY : Rat
  maxX : Rat
  maxY : Rat
deriving DecidableEq, Repr

/-- `Rect::size()`. -/
def Rect.size (r : Rect) : Vec2 := ⟨r.maxX - r.minX, r.maxY - r.minY⟩

/-- Model of `std::ops::Range<usize>`; `stop` stands for the field `end`
(a Lean keyword). -/
structure NRange where
  start : Nat
  stop : Nat
deriving DecidableEq, Repr

/-- `Range::<usize>::len()`: zero when `stop ≤ start` (Nat subtraction
truncates exactly like the saturating size hint of a backwards range). -/
def NRange.len (r : NRange) : Nat := r.stop - r.start

/-- `usize::MAX` for a 64-bit target. -/
def usizeMax : Nat := 2 ^ 64 - 1

/-- Source lines 14-18. -/
structure RowData where
  range : NRange
  rect : Rect
deriving DecidableEq, Repr

/-- Source lines 20-33: the persistent state of the list. -/
structure VirtualList where
  rows : List RowData
  previous_item_range : NRange
  last_known_row_index : Option Nat
  average_row_size : Option Vec2
  average_items_per_row : Option Rat
  last_width : Rat
deriving DecidableEq, Repr

/-- Source lines 36-45: `VirtualList::new`. -/
def VirtualList.new : VirtualList where
  rows := []
  previous_item_range := ⟨usizeMax, usizeMax⟩
  last_known_row_index := none
  average_row_size := none
  average_items_per_row := none
  last_width := 0

/-- Source lines 180-186: `VirtualList::reset`.  Note that
`previous_item_range` is not touched. -/
def VirtualList.reset (v : VirtualList) : VirtualList where
  rows := []
  previous_item_range := v.previous_item_range
  last_known_row_index := none
  average_row_size := none
  average_items_per_row := none
  last_width := 0

/-- Source lines 57-61: width invalidation at the top of
`ui_custom_layout`. -/
def invalidateIfWidthChanged (v : VirtualList) (width : Rat) : VirtualList :=
  if width ≠ v.last_width then
    { v with last_known_row_index := none, last_width := width, rows := [] }
  else
    v

/-- Source lines 73-85: the backward walk locating the first visible row.
The walk starts at `last_known_row_index.unwrap_or(0)` and decrements until
it reaches row 0 or a cached row whose top edge is at or before the visible
top. -/
def findStartRow (rows : List RowData) (visTop : Rat) : Nat → Nat
  | 0 => 0
  | j + 1 =>
    match rows[j + 1]? with
    | some row => if row.rect.minY ≤ visTop then j + 1 else findStartRow rows visTop j
    | none => findStartRow rows visTop j

/-- Source lines 88-92: the first item index to render, taken from the
resolved row's cached range, falling back to item 0. -/
def itemStartIndex (rows : List RowData) (rowStart : Nat) : Nat :=
  ((rows[rowStart]?).map (fun row => row.range.start)).getD 0

/-- The mutable state threaded through the measure loop of source
lines 96-144. -/
structure LoopState where
  rows : List RowData
  average_row_size : Option Vec2
  average_items_per_row : Option Rat
  last_known_row_index : Option Nat
  current_row : Nat
  current_item_index : Nat
deriving Repr

/-- Source lines 103-134: one row write.  Overwrites the cached row when
`current_row` is in bounds (`rows.get_mut` succeeds), otherwise pushes a new
row and updates the running averages and the starting hint; finally advances
`current_item_index` by the consumed count.  `current_row` itself is advanced
by the loop, not here. -/
def writeRow (s : LoopState) (count : Nat) (rect : Rect) : LoopState :=
  let range : NRange := ⟨s.current_item_index, s.current_item_index + count⟩
  let s1 :=
    if s.current_row < s.rows.length then
      { s with rows := s.rows.set s.current_row ⟨range, rect⟩ }
    else
      { s with
        rows := s.rows ++ [⟨range, rect⟩]
        average_row_size := some
          (match s.average_row_size with
           | some size =>
             ⟨((s.current_row : Rat) * size.x + (rect.size).x) / ((s.current_row : Rat) + 1),
              ((s.current_row : Rat) * size.y + (rect.size).y) / ((s.current_row : Rat) + 1)⟩
           | none => rect.size)
        average_items_per_row := some
          (match s.average_items_per_row with
           | some avg_count =>
             ((s.current_row : Rat) * avg_count + (count : Rat)) / ((s.current_row : Rat) + 1)
           | none => (count : Rat))
        last_known_row_index := some s.current_row }
  { s1 with current_item_index := s.current_item_index + count }

/-- Outcome of one iteration of the measure loop: `done` is a `break`. -/
inductive LoopStep where
  | done (s : LoopState)
  | next (s : LoopState)

/-- Source lines 96-144, body of one iteration: render the next row when
items remain, break once the rendered row's bottom passes the visible
bottom, or break when all items are consumed.  `current_row` is incremented
only when the loop continues (line 143 sits after both `break`s). -/
def loopBody (cb : Nat → Nat × Rect) (length : Nat) (visBot : Rat)
    (s : LoopState) : LoopStep :=
  if s.current_item_index < length then
    let count := (cb s.current_item_index).1
    let rect := (cb s.current_item_index).2
    let s1 := writeRow s count rect
    if visBot < rect.maxY then
      LoopStep.done s1
    else
      LoopStep.next { s1 with current_row := s1.current_row + 1 }
  else
    LoopStep.done s

/-- Fuel-indexed measure loop; `none` means the fuel ran out before the loop
exited. -/
def measureLoop (cb : Nat → Nat × Rect) (length : Nat) (visBot : Rat) :
    Nat → LoopState → Option LoopState
  | 0, _ => none
  | fuel + 1, s =>
    match loopBody cb length visBot s with
    | LoopStep.done s1 => some s1
    | LoopStep.next s1 => measureLoop cb length visBot fuel s1

/-- Source lines 160-177: the visibility delta, exactly as written.  Returns
`(hidden_range, visible_range)`. -/
def computeDelta (prev cur : NRange) : NRange × NRange :=
  let hidden0 : NRange := ⟨prev.start, min cur.start prev.stop⟩
  let hidden_range : NRange :=
    if hidden0.len ≤ 0 then ⟨max cur.stop prev.start, prev.stop⟩ else hidden0
  let visible0 : NRange := ⟨max prev.stop cur.start, cur.stop⟩
  let visible_range : NRange :=
    if visible0.len ≤ 0 then ⟨prev.start, min cur.start prev.stop⟩ else visible0
  (hidden_range, visible_range)

/-- Source lines 149-153: the vertical extent reserved for the unmeasured
tail, `remaining / average_items_per_row.unwrap_or(1.0) *
average_row_size.unwrap_or(Vec2::ZERO).y`. -/
def estimateRemainingHeight (avgCount : Option Rat) (avgSize : Option Vec2)
    (remaining : Nat) : Rat :=
  (remaining : Rat) / (avgCount.getD 1) * ((avgSize.getD Vec2.zero).y)

/-- Source lines 4-12: the returned response. -/
structure VirtualListResponse where
  item_range : NRange
  newly_visible_items : NRange
  hidden_items : NRange
deriving DecidableEq, Repr

/-- Everything one call of `ui_custom_layout` produces: the response, the
updated state, and the extra height reserved through `ui.set_min_height`
(`none` when line 148's guard is false; the `ui.add_space` emitted during
the backward walk is a host-side effect with no influence on the state or
response and is not recorded). -/
structure LayoutOutcome where
  response : VirtualListResponse
  state : VirtualList
  reserved_min_height : Option Rat
deriving DecidableEq, Repr

/-- Source lines 146-177: everything after the measure loop.  Note that the
source never assigns `previous_item_range`, so the new state keeps the old
value. -/
def finishLayout (v1 : VirtualList) (length itemStart : Nat) (s : LoopState) :
    LayoutOutcome :=
  let item_range : NRange := ⟨itemStart, s.current_item_index⟩
  let reserved : Option Rat :=
    if item_range.stop < length then
      some (estimateRemainingHeight s.average_items_per_row s.average_row_size
        (length - item_range.stop))
    else
      none
  let d := computeDelta v1.previous_item_range item_range
  { response :=
      { item_range := item_range
        newly_visible_items := d.2
        hidden_items := d.1 }
    state :=
      { rows := s.rows
        previous_item_range := v1.previous_item_range
        last_known_row_index := s.last_known_row_index
        average_row_size := s.average_row_size
        average_items_per_row := s.average_items_per_row
        last_width := v1.last_width }
    reserved_min_height := reserved }

/-- Source lines 49-178: `VirtualList::ui_custom_layout`.  `visTop`/`visBot`
are the vertical extent of the visible rectangle computed at line 70; `cb`
is the render callback returning the consumed count and the measured,
content-local rectangle. -/
def VirtualList.ui_custom_layout (v : VirtualList) (width visTop visBot : Rat)
    (length : Nat) (cb : Nat → Nat × Rect) (fuel : Nat) : Option LayoutOutcome :=
  let v1 := invalidateIfWidthChanged v width
  let rowStart := findStartRow v1.rows visTop (v1.last_known_row_index.getD 0)
  let itemStart := itemStartIndex v1.rows rowStart
  let s0 : LoopState :=
    { rows := v1.rows
      average_row_size := v1.average_row_size
      average_items_per_row := v1.average_items_per_row
      last_known_row_index := v1.last_known_row_index
      current_row := rowStart
      current_item_index := itemStart }
  (measureLoop cb length visBot fuel s0).map (finishLayout v1 length itemStart)

/-! ## Derived predicates used by the invariants -/

/-- The cached ranges, in row order. -/
def rangesOf (rows : List RowData) : List NRange := rows.map (fun row => row.range)

/-- Adjacent ranges tile with no gap or overlap. -/
def rangeChainOk : List NRange → Bool
  | a :: b :: t => (a.stop == b.start) && rangeChainOk (b :: t)
  | _ => true

/-- The partition invariant of the row cache: every pair of adjacent cached
rows satisfies `rows[i].range.end == rows[i+1].range.start`. -/
def chainOk (rows : List RowData) : Bool := rangeChainOk (rangesOf rows)

/-- Every cached range is the one the fixed count function `f` produces from
its own start index. -/
def rangeSelfOk (f : Nat → Nat) (l : List NRange) : Bool :=
  l.all (fun rg => rg.stop == rg.start + f rg.start)

/-! ## Spec-side definitions (for the refinement claim about the delta) -/

/-- Written from the spec's words (§4.5): `hidden := P.start .. min(C.start,
P.end)`; if this is empty, instead `hidden := max(C.end, P.start) ..
P.end`. -/
def specHidden (p c : NRange) : NRange :=
  let first : NRange := ⟨p.start, min c.start p.stop⟩
  if first.stop ≤ first.start then ⟨max c.stop p.start, p.stop⟩ else first

/-- Written from the spec's words (§4.5): `newly_visible := max(P.end,
C.start) .. C.end`; if this is empty, instead `newly_visible := P.start ..
min(C.start, P.end)`. -/
def specNewlyVisible (p c : NRange) : NRange :=
  let first : NRange := ⟨max p.stop c.start, c.stop⟩
  if first.stop ≤ first.start then ⟨p.start, min c.start p.stop⟩ else first

/-! ## Infrastructure for sequences of calls -/

/-- The per-call inputs of one `ui_custom_layout` invocation. -/
structure CallInput where
  width : Rat
  visTop : Rat
  visBot : Rat
  length : Nat
  rects : Nat → Rect
  fuel : Nat

/-- A render callback whose item counts are the fixed function `f` and whose
measured rectangles are given by `rects`. -/
def callbackOf (f : Nat → Nat) (rects : Nat → Rect) : Nat → Nat × Rect :=
  fun i => (f i, rects i)

/-- Runs a sequence of `ui_custom_layout` calls, threading the state. -/
def runCalls (f : Nat → Nat) : List CallInput → VirtualList → Option VirtualList
  | [], v => some v
  | c :: rest, v =>
    match v.ui_custom_layout c.width c.visTop c.visBot c.length (callbackOf f c.rects) c.fuel with
    | none => none
    | some r => runCalls f rest r.state

/-- Invariant carried through the measure loop when the callback's counts are
the fixed function `f`. -/
def loopInv (f : Nat → Nat) (s : LoopState) : Prop :=
  rangeChainOk (rangesOf s.rows) = true ∧
  rangeSelfOk f (rangesOf s.rows) = true ∧
  s.current_row ≤ s.rows.length ∧
  (∀ rg, (rangesOf s.rows)[s.current_row]? = some rg → rg.start = s.current_item_index) ∧
  (s.current_row = s.rows.length →
    ∀ rg, (rangesOf s.rows).getLast? = some rg → rg.stop = s.current_item_index)

/-! ## Concrete inputs used in evaluations, counterexamples and witnesses -/

def dfltOutcome : LayoutOutcome where
  response := { item_range := ⟨0, 0⟩, newly_visible_items := ⟨0, 0⟩, hidden_items := ⟨0, 0⟩ }
  state := VirtualList.new
  reserved_min_height := none

/-- One item per row, each row 20 units tall. -/
def cbRows20 : Nat → Nat × Rect := fun i =>
  if i = 0 then (1, ⟨0, 0, 100, 20⟩)
  else if i = 1 then (1, ⟨0, 20, 100, 40⟩)
  else (1, ⟨0, 40, 100, 60⟩)

/-- A cache of four rows of five items each, rows 10 units tall. -/
def c1rows : List RowData :=
  [⟨⟨0, 5⟩, ⟨0, 0, 100, 10⟩⟩, ⟨⟨5, 10⟩, ⟨0, 10, 100, 20⟩⟩,
   ⟨⟨10, 15⟩, ⟨0, 20, 100, 30⟩⟩, ⟨⟨15, 20⟩, ⟨0, 30, 100, 40⟩⟩]

/-- A state that previously displayed items `10..20`. -/
def c1prev : VirtualList where
  rows := c1rows
  previous_item_range := ⟨10, 20⟩
  last_known_row_index := some 3
  average_row_size := some ⟨100, 10⟩
  average_items_per_row := some 5
  last_width := 100

def c1cb : Nat → Nat × Rect := fun i =>
  if i = 5 then (5, ⟨0, 10, 100, 20⟩)
  else if i = 10 then (5, ⟨0, 20, 100, 30⟩)
  else (5, ⟨0, 0, 100, 10⟩)

/-- First frame: two rows of five items, 30 units tall each. -/
def c3cb1 : Nat → Nat × Rect := fun i =>
  if i = 0 then (5, ⟨0, 0, 100, 30⟩) else (5, ⟨0, 30, 100, 60⟩)

/-- Second frame: the row at item 0 now consumes only three items. -/
def c3cb2 : Nat → Nat × Rect := fun _ => (3, ⟨0, 0, 100, 60⟩)

def c3run1 : LayoutOutcome :=
  (VirtualList.ui_custom_layout VirtualList.new 100 0 50 20 c3cb1 10).getD dfltOutcome

def c3run2 : LayoutOutcome :=
  (VirtualList.ui_custom_layout c3run1.state 100 0 50 20 c3cb2 10).getD dfltOutcome

def c10run1 : LayoutOutcome :=
  (VirtualList.ui_custom_layout VirtualList.new 100 0 50 3 cbRows20 10).getD dfltOutcome

def c10run2 : LayoutOutcome :=
  (VirtualList.ui_custom_layout (VirtualList.reset c10run1.state) 100 0 30 3 cbRows20 10).getD
    dfltOutcome

/-- A render callback violating the caller contract: it consumes zero items
and occupies a degenerate rectangle that never passes the visible bottom. -/
def cbZero : Nat → Nat × Rect := fun _ => (0, ⟨0, 0, 100, 0⟩)

/-- Non-termination, expressed in the fuel model: the call runs out of any
amount of fuel. -/
def layoutDivergesOnZeroCount : Prop :=
  ∀ fuel, VirtualList.new.ui_custom_layout 100 0 100 5 cbZero fuel = none

/-- A well-behaved callback consuming one item per row. -/
def cbOnes : Nat → Nat × Rect := fun _ => (1, ⟨0, 0, 100, 0⟩)

/-- A single tall row of five items. -/
def c7cb : Nat → Nat × Rect := fun _ => (5, ⟨0, 0, 100, 200⟩)

def c7run : LayoutOutcome :=
  (VirtualList.ui_custom_layout VirtualList.new 100 0 50 100 c7cb 10).getD dfltOutcome

/-- Loop states exercising the two branches of `writeRow`. -/
def c6sOver : LoopState where
  rows := [⟨⟨0, 5⟩, ⟨0, 0, 100, 10⟩⟩]
  average_row_size := some ⟨100, 10⟩
  average_items_per_row := some 5
  last_known_row_index := some 0
  current_row := 0
  current_item_index := 0

def c6sPush : LoopState where
  rows := []
  average_row_size := none
  average_items_per_row := none
  last_known_row_index := none
  current_row := 0
  current_item_index := 0

def cW : CallInput where
  width := 100
  visTop := 0
  visBot := 50
  length := 3
  rects := fun i => if i = 0 then ⟨0, 0, 100, 20⟩ else if i = 1 then ⟨0, 20, 100, 40⟩ else ⟨0, 40, 100, 60⟩
  fuel := 10

/-! ## Shared helper lemmas -/

lemma NRange.len_le_zero_iff (r : NRange) : r.len ≤ 0 ↔ r.stop ≤ r.start := by
  unfold NRange.len; omega

lemma computeDelta_eq_spec (p c : NRange) :
    computeDelta p c = (specHidden p c, specNewlyVisible p c) := by
  simp only [computeDelta, specHidden, specNewlyVisible, NRange.len]
  split_ifs <;> first | rfl | (exfalso; omega)

lemma invalidate_previous (v : VirtualList) (w : Rat) :
    (invalidateIfWidthChanged v w).previous_item_range = v.previous_item_range := by
  unfold invalidateIfWidthChanged; split <;> rfl

lemma invalidate_last_width_ne (v : VirtualList) (w : Rat) (h : w ≠ v.last_width) :
    (invalidateIfWidthChanged v w).rows = []
      ∧ (invalidateIfWidthChanged v w).last_known_row_index = none
      ∧ (invalidateIfWidthChanged v w).last_width = w := by
  unfold invalidateIfWidthChanged
  rw [if_pos h]
  exact ⟨rfl, rfl, rfl⟩

lemma invalidate_rows_cases (v : VirtualList) (w : Rat) :
    (invalidateIfWidthChanged v w).rows = v.rows ∨ (invalidateIfWidthChanged v w).rows = [] := by
  unfold invalidateIfWidthChanged; split
  · exact Or.inr rfl
  · exact Or.inl rfl

lemma invalidate_new (w : Rat) :
    invalidateIfWidthChanged VirtualList.new w = { VirtualList.new with last_width := w } := by
  unfold invalidateIfWidthChanged
  split
  · rfl
  · rename_i h
    rw [not_not] at h
    rw [h]

/-- Everything one successful call produces, destructured. -/
lemma layout_destruct (v : VirtualList) (width visTop visBot : Rat) (length : Nat)
    (cb : Nat → Nat × Rect) (fuel : Nat) (r : LayoutOutcome)
    (h : v.ui_custom_layout width visTop visBot length cb fuel = some r) :
    ∃ s : LoopState,
      measureLoop cb length visBot fuel
        { rows := (invalidateIfWidthChanged v width).rows
          average_row_size := (invalidateIfWidthChanged v width).average_row_size
          average_items_per_row := (invalidateIfWidthChanged v width).average_items_per_row
          last_known_row_index := (invalidateIfWidthChanged v width).last_known_row_index
          current_row := findStartRow (invalidateIfWidthChanged v width).rows visTop
            (((invalidateIfWidthChanged v width).last_known_row_index).getD 0)
          current_item_index := itemStartIndex (invalidateIfWidthChanged v width).rows
            (findStartRow (invalidateIfWidthChanged v width).rows visTop
              (((invalidateIfWidthChanged v width).last_known_row_index).getD 0)) } = some s
      ∧ r = finishLayout (invalidateIfWidthChanged v width) length
          (itemStartIndex (invalidateIfWidthChanged v width).rows
            (findStartRow (invalidateIfWidthChanged v width).rows visTop
              (((invalidateIfWidthChanged v width).last_known_row_index).getD 0))) s := by
  simp only [VirtualList.ui_custom_layout, Option.map_eq_some'] at h
  obtain ⟨s, hs, hr⟩ := h
  exact ⟨s, hs, hr.symm⟩

/-- The response's delta fields are the `computeDelta` of the unchanged
`previous_item_range` against the displayed range, and the state keeps
`previous_item_range` as it was. -/
lemma layout_delta (v : VirtualList) (width visTop visBot : Rat) (length : Nat)
    (cb : Nat → Nat × Rect) (fuel : Nat) (r : LayoutOutcome)
    (h : v.ui_custom_layout width visTop visBot length cb fuel = some r) :
    r.response.hidden_items = (computeDelta v.previous_item_range r.response.item_range).1
      ∧ r.response.newly_visible_items = (computeDelta v.previous_item_range r.response.item_range).2
      ∧ r.state.previous_item_range = v.previous_item_range := by
  obtain ⟨s, _, hr⟩ := layout_destruct v width visTop visBot length cb fuel r h
  subst hr
  refine ⟨?_, ?_, ?_⟩ <;> simp only [finishLayout, invalidate_previous]

lemma fresh_delta_len (e : Nat) (he : e ≤ usizeMax) :
    (computeDelta ⟨usizeMax, usizeMax⟩ ⟨0, e⟩).2.len = 0
      ∧ (computeDelta ⟨usizeMax, usizeMax⟩ ⟨0, e⟩).1.len = 0 := by
  simp only [computeDelta, NRange.len]
  constructor
  · split_ifs
    · simp
    · simp
      omega
  · split_ifs <;> simp

/-- Claim C1: with previous displayed range `10..20` and a call that displays
`5..15`, the code returns `hidden_items = 15..20` as the spec expects, but
`newly_visible_items = 10..5` (an empty range) instead of the expected
`5..10`: the second fallback branch of the delta calculation can never
produce the newly exposed head items of a backward scroll. -/
theorem C1_backward_scroll_eval :
    (VirtualList.ui_custom_layout c1prev 100 12 28 20 c1cb 10).map
        (fun r => (r.response.item_range, r.response.hidden_items, r.response.newly_visible_items))
      = some (⟨5, 15⟩, ⟨15, 20⟩, ⟨10, 5⟩)
    ∧ (VirtualList.ui_custom_layout c1prev 100 12 28 20 c1cb 10).map
        (fun r => r.response.newly_visible_items) ≠ some ⟨5, 10⟩ := by
  decide

/-- Claim C4: for every call, the returned delta is exactly the spec's
two-branch formulas applied to the previous range and the new range. -/
theorem C4_delta_formulas (v : VirtualList) (width visTop visBot : Rat) (length : Nat)
    (cb : Nat → Nat × Rect) (fuel : Nat) (r : LayoutOutcome)
    (h : v.ui_custom_layout width visTop visBot length cb fuel = some r) :
    r.response.hidden_items = specHidden v.previous_item_range r.response.item_range
      ∧ r.response.newly_visible_items
          = specNewlyVisible v.previous_item_range r.response.item_range := by
  obtain ⟨h1, h2, _⟩ := layout_delta v width visTop visBot length cb fuel r h
  rw [h1, h2, computeDelta_eq_spec]
  exact ⟨rfl, rfl⟩

theorem C4_delta_formulas_witness :
    ((VirtualList.ui_custom_layout VirtualList.new 100 0 50 3 cbRows20 10).getD dfltOutcome).response.hidden_items
        = specHidden VirtualList.new.previous_item_range
            (((VirtualList.ui_custom_layout VirtualList.new 100 0 50 3 cbRows20 10).getD dfltOutcome).response.item_range)
      ∧ ((VirtualList.ui_custom_layout VirtualList.new 100 0 50 3 cbRows20 10).getD dfltOutcome).response.newly_visible_items
        = specNewlyVisible VirtualList.new.previous_item_range
            (((VirtualList.ui_custom_layout VirtualList.new 100 0 50 3 cbRows20 10).getD dfltOutcome).response.item_range) :=
  C4_delta_formulas VirtualList.new 100 0 50 3 cbRows20 10
    ((VirtualList.ui_custom_layout VirtualList.new 100 0 50 3 cbRows20 10).getD dfltOutcome) rfl

/-- Claim C5: a call whose width differs from the stored width clears the
row cache and the starting hint and stores the new width before the
measurement loop begins; consequently the whole call reduces to the measure
loop started on an empty cache at row 0, item 0. -/
theorem C5_width_invalidation (v : VirtualList) (width : Rat) (h : width ≠ v.last_width) :
    (invalidateIfWidthChanged v width).rows = []
      ∧ (invalidateIfWidthChanged v width).last_known_row_index = none
      ∧ (invalidateIfWidthChanged v width).last_width = width
      ∧ ∀ visTop visBot : Rat, ∀ length : Nat, ∀ cb : Nat → Nat × Rect, ∀ fuel : Nat,
          v.ui_custom_layout width visTop visBot length cb fuel =
            (measureLoop cb length visBot fuel
              { rows := []
                average_row_size := (invalidateIfWidthChanged v width).average_row_size
                average_items_per_row := (invalidateIfWidthChanged v width).average_items_per_row
                last_known_row_index := none
                current_row := 0
                current_item_index := 0 }).map
              (finishLayout (invalidateIfWidthChanged v width) length 0) := by
  obtain ⟨h1, h2, h3⟩ := invalidate_last_width_ne v width h
  refine ⟨h1, h2, h3, ?_⟩
  intro visTop visBot length cb fuel
  simp only [VirtualList.ui_custom_layout, h1, h2]
  rfl

theorem C5_width_invalidation_witness :
    (invalidateIfWidthChanged VirtualList.new 100).rows = []
      ∧ (invalidateIfWidthChanged VirtualList.new 100).last_known_row_index = none
      ∧ (invalidateIfWidthChanged VirtualList.new 100).last_width = 100
      ∧ VirtualList.new.ui_custom_layout 100 0 50 3 cbRows20 10 =
          (measureLoop cbRows20 3 50 10
            { rows := []
              average_row_size := (invalidateIfWidthChanged VirtualList.new 100).average_row_size
              average_items_per_row := (invalidateIfWidthChanged VirtualList.new 100).average_items_per_row
              last_known_row_index := none
              current_row := 0
              current_item_index := 0 }).map
            (finishLayout (invalidateIfWidthChanged VirtualList.new 100) 3 0) :=
  ⟨(C5_width_invalidation VirtualList.new 100 (by decide)).1,
   (C5_width_invalidation VirtualList.new 100 (by decide)).2.1,
   (C5_width_invalidation VirtualList.new 100 (by decide)).2.2.1,
   (C5_width_invalidation VirtualList.new 100 (by decide)).2.2.2 0 50 3 cbRows20 10⟩

/-- Claim C9: on the first call after `VirtualList::new`, both delta ranges
are empty for every input (as long as the displayed range's end fits in a
`usize`, which Rust guarantees), because `previous_item_range` starts as
`usize::MAX..usize::MAX`. -/
theorem C9_first_call_empty_delta (width visTop visBot : Rat) (length : Nat)
    (cb : Nat → Nat × Rect) (fuel : Nat) (r : LayoutOutcome)
    (h : VirtualList.new.ui_custom_layout width visTop visBot length cb fuel = some r)
    (hstop : r.response.item_range.stop ≤ usizeMax) :
    r.response.newly_visible_items.len = 0 ∧ r.response.hidden_items.len = 0 := by
  obtain ⟨s, hs, hr⟩ := layout_destruct _ _ _ _ _ _ _ _ h
  rw [invalidate_new] at hr
  have h0 : itemStartIndex ({ VirtualList.new with last_width := width } : VirtualList).rows
      (findStartRow ({ VirtualList.new with last_width := width } : VirtualList).rows visTop
        ((({ VirtualList.new with last_width := width } : VirtualList).last_known_row_index).getD 0)) = 0 := rfl
  rw [h0] at hr
  subst hr
  have hprev : ({ VirtualList.new with last_width := width } : VirtualList).previous_item_range
      = ⟨usizeMax, usizeMax⟩ := rfl
  simp only [finishLayout, hprev] at hstop ⊢
  exact fresh_delta_len s.current_item_index hstop

theorem C9_first_call_empty_delta_witness :
    ((VirtualList.ui_custom_layout VirtualList.new 100 0 50 3 cbRows20 10).getD dfltOutcome).response.newly_visible_items.len = 0
      ∧ ((VirtualList.ui_custom_layout VirtualList.new 100 0 50 3 cbRows20 10).getD dfltOutcome).response.hidden_items.len = 0 :=
  C9_first_call_empty_delta 100 0 50 3 cbRows20 10
    ((VirtualList.ui_custom_layout VirtualList.new 100 0 50 3 cbRows20 10).getD dfltOutcome) rfl
    (by decide)

/-- Claim C10 counterexample: a first call displays `0..3`; after `reset()`
a second call displays `0..2`, but its hidden delta is not the one computed
against the previously displayed `0..3` (which would be `2..3`): the source
never writes `previous_item_range`, so the delta is computed against the
initial `usize::MAX..usize::MAX`. -/
theorem C10_reset_delta_counterexample :
    c10run1.response.item_range = ⟨0, 3⟩
      ∧ c10run2.response.item_range = ⟨0, 2⟩
      ∧ c10run2.response.hidden_items ≠ (computeDelta ⟨0, 3⟩ c10run2.response.item_range).1
      ∧ c10run2.state.previous_item_range = ⟨usizeMax, usizeMax⟩ := by
  decide

/-- Claim C10 (amended): `reset` clears `rows`, `last_known_row_index`,
`average_row_size`, `average_items_per_row` and `last_width`, and leaves
`previous_item_range` unchanged; the delta of the next call is computed
against that unchanged `previous_item_range` value — which, since layout
never updates the field, is whatever it was at construction, not the item
range displayed before the reset. -/
theorem C10_reset_amended (v : VirtualList) :
    v.reset.rows = [] ∧ v.reset.last_known_row_index = none
      ∧ v.reset.average_row_size = none ∧ v.reset.average_items_per_row = none
      ∧ v.reset.last_width = 0
      ∧ v.reset.previous_item_range = v.previous_item_range
      ∧ ∀ width visTop visBot : Rat, ∀ length : Nat, ∀ cb : Nat → Nat × Rect, ∀ fuel : Nat,
          ∀ r : LayoutOutcome,
          v.reset.ui_custom_layout width visTop visBot length cb fuel = some r →
            r.response.hidden_items = (computeDelta v.previous_item_range r.response.item_range).1
              ∧ r.response.newly_visible_items
                  = (computeDelta v.previous_item_range r.response.item_range).2
              ∧ r.state.previous_item_range = v.previous_item_range := by
  refine ⟨rfl, rfl, rfl, rfl, rfl, rfl, ?_⟩
  intro width visTop visBot length cb fuel r h
  exact layout_delta v.reset width visTop visBot length cb fuel r h

theorem C10_reset_amended_witness :
    c1prev.reset.rows = []
      ∧ c1prev.reset.previous_item_range = c1prev.previous_item_range
      ∧ (((VirtualList.ui_custom_layout c1prev.reset 100 0 50 3 cbRows20 10).getD dfltOutcome).response.hidden_items
          = (computeDelta c1prev.previous_item_range
              (((VirtualList.ui_custom_layout c1prev.reset 100 0 50 3 cbRows20 10).getD dfltOutcome).response.item_range)).1) :=
  ⟨(C10_reset_amended c1prev).1,
   (C10_reset_amended c1prev).2.2.2.2.2.1,
   ((C10_reset_amended c1prev).2.2.2.2.2.2 100 0 50 3 cbRows20 10
     ((VirtualList.ui_custom_layout c1prev.reset 100 0 50 3 cbRows20 10).getD dfltOutcome) rfl).1⟩

lemma writeRow_current_item (s : LoopState) (count : Nat) (rect : Rect) :
    (writeRow s count rect).current_item_index = s.current_item_index + count := rfl

lemma writeRow_current_row (s : LoopState) (count : Nat) (rect : Rect) :
    (writeRow s count rect).current_row = s.current_row := by
  unfold writeRow
  split <;> rfl

lemma loopBody_next_facts (cb : Nat → Nat × Rect) (length : Nat) (visBot : Rat)
    (s s1 : LoopState) (h : loopBody cb length visBot s = LoopStep.next s1) :
    s.current_item_index < length
      ∧ s1.current_item_index = s.current_item_index + (cb s.current_item_index).1 := by
  simp only [loopBody] at h
  by_cases hlt : s.current_item_index < length
  · rw [if_pos hlt] at h
    by_cases hbr : visBot < (cb s.current_item_index).2.maxY
    · rw [if_pos hbr] at h
      cases h
    · rw [if_neg hbr] at h
      injection h with h
      refine ⟨hlt, ?_⟩
      rw [← h]
      rfl
  · rw [if_neg hlt] at h
    cases h

lemma measureLoop_pos_some (cb : Nat → Nat × Rect) (length : Nat) (visBot : Rat)
    (hpos : ∀ i, i < length → 0 < (cb i).1) :
    ∀ fuel s, length - s.current_item_index < fuel →
      (measureLoop cb length visBot fuel s).isSome = true := by
  intro fuel
  induction fuel with
  | zero => intro s h; omega
  | succ n ih =>
    intro s h
    rw [measureLoop]
    rcases hbody : loopBody cb length visBot s with s1 | s1
    · simp
    · simp only []
      apply ih
      obtain ⟨hlt, hcii⟩ := loopBody_next_facts cb length visBot s s1 hbody
      have hc := hpos s.current_item_index hlt
      omega

lemma measureLoop_cbZero_none : ∀ fuel (s : LoopState), s.current_item_index < 5 →
    measureLoop cbZero 5 100 fuel s = none := by
  intro fuel
  induction fuel with
  | zero => intro s _; rfl
  | succ n ih =>
    intro s hs
    rw [measureLoop]
    have hb : loopBody cbZero 5 100 s = LoopStep.next
        { writeRow s 0 ⟨0, 0, 100, 0⟩ with
            current_row := (writeRow s 0 ⟨0, 0, 100, 0⟩).current_row + 1 } := by
      simp only [loopBody, cbZero]
      rw [if_pos hs, if_neg (by decide : ¬ ((100 : Rat) < (0 : Rat)))]
    rw [hb]
    apply ih
    have : ({ writeRow s 0 ⟨0, 0, 100, 0⟩ with
        current_row := (writeRow s 0 ⟨0, 0, 100, 0⟩).current_row + 1 }).current_item_index
        = s.current_item_index + 0 := writeRow_current_item s 0 ⟨0, 0, 100, 0⟩
    omega

/-- Claim C2 counterexample: with a render callback returning zero items for
an in-range index (and a rectangle that never passes the visible bottom),
the measure loop of `ui_custom_layout` exhausts every amount of fuel: there
is no guard forcing progress of at least one item, and the loop spins
forever. -/
theorem C2_zero_count_diverges : layoutDivergesOnZeroCount := by
  intro fuel
  have h : VirtualList.new.ui_custom_layout 100 0 100 5 cbZero fuel
      = (measureLoop cbZero 5 100 fuel
          { rows := []
            average_row_size := none
            average_items_per_row := none
            last_known_row_index := none
            current_row := 0
            current_item_index := 0 }).map
          (finishLayout (invalidateIfWidthChanged VirtualList.new 100) 5 0) := rfl
  rw [h, measureLoop_cbZero_none fuel _ (by decide)]
  rfl

/-- Claim C2 (amended): the source has no guard against a zero-items render
callback; the measure loop terminates provided the callback returns a
strictly positive count for every index below `length` — then fuel
`length + 1` (or more) always suffices, for every state and input. -/
theorem C2_positive_count_terminates (v : VirtualList) (width visTop visBot : Rat)
    (length : Nat) (cb : Nat → Nat × Rect) (fuel : Nat)
    (hpos : ∀ i, i < length → 0 < (cb i).1) (hfuel : length < fuel) :
    (v.ui_custom_layout width visTop visBot length cb fuel).isSome = true := by
  simp only [VirtualList.ui_custom_layout, Option.isSome_map']
  apply measureLoop_pos_some cb length visBot hpos
  omega

theorem C2_positive_count_terminates_witness :
    (VirtualList.new.ui_custom_layout 100 0 100 3 cbOnes 4).isSome = true :=
  C2_positive_count_terminates VirtualList.new 100 0 100 3 cbOnes 4
    (fun _ _ => Nat.one_pos) (by decide)

/-- Claim C6: the running averages change only when a new row is appended
(`rows.get_mut` missed), using `new_avg = (n * avg + sample) / (n + 1)` with
`n` the row's own index; overwriting an already-cached row replaces its
range and rect and leaves both averages (and the starting hint)
unchanged. -/
theorem C6_average_update (s : LoopState) (count : Nat) (rect : Rect) :
    (s.current_row < s.rows.length →
      (writeRow s count rect).average_row_size = s.average_row_size
        ∧ (writeRow s count rect).average_items_per_row = s.average_items_per_row
        ∧ (writeRow s count rect).last_known_row_index = s.last_known_row_index
        ∧ (writeRow s count rect).rows
            = s.rows.set s.current_row
                ⟨⟨s.current_item_index, s.current_item_index + count⟩, rect⟩)
    ∧ (s.rows.length ≤ s.current_row →
      (writeRow s count rect).rows
          = s.rows ++ [⟨⟨s.current_item_index, s.current_item_index + count⟩, rect⟩]
        ∧ (writeRow s count rect).last_known_row_index = some s.current_row
        ∧ (s.average_row_size = none → (writeRow s count rect).average_row_size = some rect.size)
        ∧ (∀ sz, s.average_row_size = some sz →
            (writeRow s count rect).average_row_size = some
              ⟨((s.current_row : Rat) * sz.x + (rect.size).x) / ((s.current_row : Rat) + 1),
               ((s.current_row : Rat) * sz.y + (rect.size).y) / ((s.current_row : Rat) + 1)⟩)
        ∧ (s.average_items_per_row = none →
            (writeRow s count rect).average_items_per_row = some (count : Rat))
        ∧ (∀ a, s.average_items_per_row = some a →
            (writeRow s count rect).average_items_per_row = some
              (((s.current_row : Rat) * a + (count : Rat)) / ((s.current_row : Rat) + 1)))) := by
  constructor
  · intro h
    simp only [writeRow]
    rw [if_pos h]
    exact ⟨rfl, rfl, rfl, rfl⟩
  · intro h
    simp only [writeRow]
    rw [if_neg (Nat.not_lt.mpr h)]
    refine ⟨rfl, rfl, ?_, ?_, ?_, ?_⟩
    · intro h0
      rw [h0]
    · intro sz hsz
      rw [hsz]
    · intro h0
      rw [h0]
    · intro a ha
      rw [ha]

theorem C6_average_update_witness :
    ((writeRow c6sOver 5 ⟨0, 0, 100, 10⟩).average_row_size = c6sOver.average_row_size
        ∧ (writeRow c6sOver 5 ⟨0, 0, 100, 10⟩).average_items_per_row
            = c6sOver.average_items_per_row)
      ∧ ((writeRow c6sPush 5 ⟨0, 0, 100, 200⟩).average_items_per_row = some ((5 : Nat) : Rat)
        ∧ (writeRow c6sPush 5 ⟨0, 0, 100, 200⟩).average_row_size
            = some (Rect.size ⟨0, 0, 100, 200⟩)) :=
  ⟨⟨((C6_average_update c6sOver 5 ⟨0, 0, 100, 10⟩).1 (by decide)).1,
    ((C6_average_update c6sOver 5 ⟨0, 0, 100, 10⟩).1 (by decide)).2.1⟩,
   ⟨((C6_average_update c6sPush 5 ⟨0, 0, 100, 200⟩).2 (by decide)).2.2.2.2.1 rfl,
    ((C6_average_update c6sPush 5 ⟨0, 0, 100, 200⟩).2 (by decide)).2.2.1 rfl⟩⟩

/-- Claim C7: whenever a call ends with items left over (`item_range.end <
length`), the extra reserved height is exactly
`remaining / average_items_per_row * average_row_size.y`; when no row has
ever been observed (both averages still unset) the reserved extent is zero;
and nothing is reserved when all items were covered. -/
theorem C7_tail_reserve (v : VirtualList) (width visTop visBot : Rat) (length : Nat)
    (cb : Nat → Nat × Rect) (fuel : Nat) (r : LayoutOutcome)
    (h : v.ui_custom_layout width visTop visBot length cb fuel = some r) :
    (r.reserved_min_height.isSome = true ↔ r.response.item_range.stop < length)
    ∧ (∀ c sz, r.state.average_items_per_row = some c → r.state.average_row_size = some sz →
        r.response.item_range.stop < length →
        r.reserved_min_height
          = some (((length - r.response.item_range.stop : Nat) : Rat) / c * sz.y))
    ∧ (r.state.average_items_per_row = none → r.state.average_row_size = none →
        r.response.item_range.stop < length →
        r.reserved_min_height = some 0) := by
  obtain ⟨s, hs, hr⟩ := layout_destruct v width visTop visBot length cb fuel r h
  subst hr
  refine ⟨?_, ?_, ?_⟩
  · simp only [finishLayout]
    split
    · rename_i hlt
      simpa using hlt
    · rename_i hlt
      simpa using hlt
  · intro c sz hc hsz hlt
    simp only [finishLayout] at hc hsz hlt ⊢
    rw [if_pos hlt]
    rw [estimateRemainingHeight, hc, hsz]
    rfl
  · intro hc hsz hlt
    simp only [finishLayout] at hc hsz hlt ⊢
    rw [if_pos hlt]
    rw [estimateRemainingHeight, hc, hsz]
    simp [Vec2.zero]

theorem C7_tail_reserve_witness :
    c7run.reserved_min_height
      = some (((100 - c7run.response.item_range.stop : Nat) : Rat) / ((5 : Nat) : Rat)
          * (Rect.size ⟨0, 0, 100, 200⟩).y) :=
  (C7_tail_reserve VirtualList.new 100 0 50 100 c7cb 10 c7run rfl).2.1
    ((5 : Nat) : Rat) (Rect.size ⟨0, 0, 100, 200⟩) (by decide) rfl (by decide)

lemma findStartRow_zero (rows : List RowData) (t : Rat) : findStartRow rows t 0 = 0 := rfl

lemma findStartRow_succ_some (rows : List RowData) (t : Rat) (n : Nat) (row : RowData)
    (h : rows[n + 1]? = some row) :
    findStartRow rows t (n + 1)
      = if row.rect.minY ≤ t then n + 1 else findStartRow rows t n := by
  rw [findStartRow, h]

lemma findStartRow_succ_none (rows : List RowData) (t : Rat) (n : Nat)
    (h : rows[n + 1]? = none) :
    findStartRow rows t (n + 1) = findStartRow rows t n := by
  rw [findStartRow, h]

lemma findStartRow_le (rows : List RowData) (t : Rat) : ∀ j, findStartRow rows t j ≤ j := by
  intro j
  induction j with
  | zero => exact Nat.le_refl 0
  | succ n ih =>
    cases h : rows[n + 1]? with
    | some row =>
      rw [findStartRow_succ_some rows t n row h]
      split
      · exact Nat.le_refl (n + 1)
      · exact ih.trans (Nat.le_succ n)
    | none =>
      rw [findStartRow_succ_none rows t n h]
      exact ih.trans (Nat.le_succ n)

lemma findStartRow_spec (rows : List RowData) (t : Rat) :
    ∀ j, findStartRow rows t j = 0
      ∨ ∃ row, rows[findStartRow rows t j]? = some row ∧ row.rect.minY ≤ t := by
  intro j
  induction j with
  | zero => exact Or.inl rfl
  | succ n ih =>
    cases h : rows[n + 1]? with
    | some row =>
      rw [findStartRow_succ_some rows t n row h]
      by_cases hle : row.rect.minY ≤ t
      · rw [if_pos hle]
        exact Or.inr ⟨row, h, hle⟩
      · rw [if_neg hle]
        exact ih
    | none =>
      rw [findStartRow_succ_none rows t n h]
      exact ih

lemma findStartRow_above (rows : List RowData) (t : Rat) :
    ∀ j k row, findStartRow rows t j < k → k ≤ j → rows[k]? = some row →
      t < row.rect.minY := by
  intro j
  induction j with
  | zero =>
    intro k row h1 h2 _
    rw [findStartRow_zero] at h1
    omega
  | succ n ih =>
    intro k row h1 h2 h3
    cases hn : rows[n + 1]? with
    | some row0 =>
      rw [findStartRow_succ_some rows t n row0 hn] at h1
      by_cases hle : row0.rect.minY ≤ t
      · rw [if_pos hle] at h1
        omega
      · rw [if_neg hle] at h1
        rcases Nat.lt_or_ge k (n + 1) with hk | hk
        · exact ih k row h1 (by omega) h3
        · have hk1 : k = n + 1 := by omega
          subst hk1
          rw [hn] at h3
          injection h3 with h3
          rw [← h3]
          exact lt_of_not_le hle
    | none =>
      rw [findStartRow_succ_none rows t n hn] at h1
      rcases Nat.lt_or_ge k (n + 1) with hk | hk
      · exact ih k row h1 (by omega) h3
      · have hk1 : k = n + 1 := by omega
        subst hk1
        rw [hn] at h3
        cases h3

lemma findStartRow_none_eq_zero (rows : List RowData) (t : Rat) (j : Nat)
    (h : rows[findStartRow rows t j]? = none) : findStartRow rows t j = 0 := by
  rcases findStartRow_spec rows t j with h0 | ⟨row, hrow, _⟩
  · exact h0
  · rw [h] at hrow
    cases hrow

/-- Claim C8: the backward walk of the Viewport Locator always terminates at
an index no larger than where it started; it stops at row 0 or at a cached
row whose top edge is at or before the visible top, every row it skipped
over (strictly between the result and the start) having its cached top edge
strictly below the visible top; and the first item index to render is the
resolved row's cached range start, falling back to item 0 when the cache
has no entry there. -/
theorem C8_backward_walk (rows : List RowData) (t : Rat) (j : Nat) :
    findStartRow rows t j ≤ j
    ∧ (findStartRow rows t j = 0
        ∨ ∃ row, rows[findStartRow rows t j]? = some row ∧ row.rect.minY ≤ t)
    ∧ (∀ k row, findStartRow rows t j < k → k ≤ j → rows[k]? = some row →
        t < row.rect.minY)
    ∧ itemStartIndex rows (findStartRow rows t j)
        = ((rows[findStartRow rows t j]?).map (fun row => row.range.start)).getD 0 :=
  ⟨findStartRow_le rows t j, findStartRow_spec rows t j,
   fun k row h1 h2 h3 => findStartRow_above rows t j k row h1 h2 h3, rfl⟩

theorem C8_backward_walk_witness :
    findStartRow c1rows 12 3 ≤ 3
      ∧ itemStartIndex c1rows (findStartRow c1rows 12 3)
          = ((c1rows[findStartRow c1rows 12 3]?).map (fun row => row.range.start)).getD 0 :=
  ⟨(C8_backward_walk c1rows 12 3).1, (C8_backward_walk c1rows 12 3).2.2.2⟩

lemma rangeChainOk_cons_cons (a b : NRange) (t : List NRange) :
    rangeChainOk (a :: b :: t) = ((a.stop == b.start) && rangeChainOk (b :: t)) := rfl

lemma rangeChainOk_append_singleton :
    ∀ (l : List NRange) (x : NRange), rangeChainOk l = true →
      (∀ rg, l.getLast? = some rg → rg.stop = x.start) →
      rangeChainOk (l ++ [x]) = true
  | [], _, _, _ => rfl
  | [a], x, _, hlast => by
    have ha := hlast a rfl
    show rangeChainOk (a :: [x]) = true
    rw [rangeChainOk_cons_cons]
    simp [ha]
    rfl
  | a :: b :: t, x, h, hlast => by
    rw [rangeChainOk_cons_cons] at h
    simp only [Bool.and_eq_true, beq_iff_eq] at h
    have hl : ∀ rg, (b :: t).getLast? = some rg → rg.stop = x.start := by
      intro rg hrg
      exact hlast rg (by rw [List.getLast?_cons_cons]; exact hrg)
    have ih := rangeChainOk_append_singleton (b :: t) x h.2 hl
    show rangeChainOk (a :: ((b :: t) ++ [x])) = true
    rw [List.cons_append, rangeChainOk_cons_cons]
    simp only [Bool.and_eq_true, beq_iff_eq]
    exact ⟨h.1, ih⟩

lemma rangeChainOk_adjacent :
    ∀ (l : List NRange) (i : Nat) (a b : NRange),
      rangeChainOk l = true → l[i]? = some a → l[i + 1]? = some b → a.stop = b.start
  | [], _, _, _, _, ha, _ => by simp at ha
  | [x], i, a, b, _, _, hb => by
    have hn : ([x] : List NRange)[i + 1]? = none := List.getElem?_eq_none (by simp)
    rw [hn] at hb
    cases hb
  | x :: y :: t, 0, a, b, hc, ha, hb => by
    rw [List.getElem?_cons_zero] at ha
    rw [List.getElem?_cons_succ, List.getElem?_cons_zero] at hb
    injection ha with ha
    injection hb with hb
    rw [rangeChainOk_cons_cons] at hc
    simp only [Bool.and_eq_true, beq_iff_eq] at hc
    rw [← ha, ← hb]
    exact hc.1
  | x :: y :: t, i + 1, a, b, hc, ha, hb => by
    rw [List.getElem?_cons_succ] at ha hb
    rw [rangeChainOk_cons_cons] at hc
    simp only [Bool.and_eq_true] at hc
    exact rangeChainOk_adjacent (y :: t) i a b hc.2 ha hb

lemma rangeSelfOk_append (f : Nat → Nat) (l : List NRange) (x : NRange)
    (h : rangeSelfOk f l = true) (hx : x.stop = x.start + f x.start) :
    rangeSelfOk f (l ++ [x]) = true := by
  simp only [rangeSelfOk] at h ⊢
  rw [List.all_append]
  simp [h, hx]

lemma rangeSelfOk_elem (f : Nat → Nat) (l : List NRange) (i : Nat) (rg : NRange)
    (h : rangeSelfOk f l = true) (hi : l[i]? = some rg) :
    rg.stop = rg.start + f rg.start := by
  have hmem : rg ∈ l := List.getElem?_mem hi
  rw [rangeSelfOk, List.all_eq_true] at h
  have := h rg hmem
  simpa [beq_iff_eq] using this

lemma list_set_of_getElem_eq {α : Type} :
    ∀ (l : List α) (i : Nat) (a : α), l[i]? = some a → l.set i a = l
  | [], _, _, h => by simp at h
  | x :: t, 0, a, h => by
    rw [List.getElem?_cons_zero] at h
    injection h with h
    rw [List.set_cons_zero, ← h]
  | x :: t, i + 1, a, h => by
    rw [List.getElem?_cons_succ] at h
    rw [List.set_cons_succ, list_set_of_getElem_eq t i a h]

lemma rangesOf_set (rows : List RowData) (i : Nat) (row : RowData) :
    rangesOf (rows.set i row) = (rangesOf rows).set i row.range := by
  simp [rangesOf, List.map_set]

lemma rangesOf_append (rows : List RowData) (row : RowData) :
    rangesOf (rows ++ [row]) = rangesOf rows ++ [row.range] := by
  simp [rangesOf]

lemma rangesOf_length (rows : List RowData) : (rangesOf rows).length = rows.length := by
  simp [rangesOf]

lemma writeRow_rows (s : LoopState) (count : Nat) (rect : Rect) :
    (writeRow s count rect).rows =
      (if s.current_row < s.rows.length then
        s.rows.set s.current_row ⟨⟨s.current_item_index, s.current_item_index + count⟩, rect⟩
       else s.rows ++ [⟨⟨s.current_item_index, s.current_item_index + count⟩, rect⟩]) := by
  unfold writeRow
  split <;> rfl

lemma inv_row_at (f : Nat → Nat) (s : LoopState) (hinv : loopInv f s)
    (hr : s.current_row < s.rows.length) :
    (rangesOf s.rows)[s.current_row]?
      = some ⟨s.current_item_index, s.current_item_index + f s.current_item_index⟩ := by
  obtain ⟨hchain, hself, hle, hcur, hlast⟩ := hinv
  have hrow : s.rows[s.current_row]? = some (s.rows[s.current_row]) := List.getElem?_eq_getElem hr
  have hrg : (rangesOf s.rows)[s.current_row]? = some ((s.rows[s.current_row]).range) := by
    rw [rangesOf, List.getElem?_map, hrow, Option.map_some']
  have hstart := hcur _ hrg
  have hstop := rangeSelfOk_elem f (rangesOf s.rows) s.current_row _ hself hrg
  rw [hrg]
  congr 1
  have heta : (s.rows[s.current_row]).range
      = (⟨(s.rows[s.current_row]).range.start, (s.rows[s.current_row]).range.stop⟩ : NRange) := rfl
  rw [heta, hstop, hstart]

lemma writeRow_ranges_overwrite (f : Nat → Nat) (s : LoopState) (rect : Rect)
    (hinv : loopInv f s) (hr : s.current_row < s.rows.length) :
    rangesOf (writeRow s (f s.current_item_index) rect).rows = rangesOf s.rows := by
  rw [writeRow_rows, if_pos hr, rangesOf_set,
    list_set_of_getElem_eq _ _ _ (inv_row_at f s hinv hr)]

lemma writeRow_chain_self (f : Nat → Nat) (s : LoopState) (rect : Rect) (hinv : loopInv f s) :
    rangeChainOk (rangesOf (writeRow s (f s.current_item_index) rect).rows) = true
      ∧ rangeSelfOk f (rangesOf (writeRow s (f s.current_item_index) rect).rows) = true := by
  by_cases hr : s.current_row < s.rows.length
  · rw [writeRow_ranges_overwrite f s rect hinv hr]
    exact ⟨hinv.1, hinv.2.1⟩
  · obtain ⟨hchain, hself, hle, hcur, hlast⟩ := hinv
    have hreq : s.current_row = s.rows.length := by omega
    rw [writeRow_rows, if_neg hr, rangesOf_append]
    constructor
    · apply rangeChainOk_append_singleton _ _ hchain
      intro rg hrg
      have := hlast (by rw [← rangesOf_length] at hreq; omega) rg hrg
      exact this
    · exact rangeSelfOk_append f _ _ hself rfl

lemma writeRow_next_inv (f : Nat → Nat) (s : LoopState) (rect : Rect) (hinv : loopInv f s) :
    loopInv f { writeRow s (f s.current_item_index) rect with
                current_row := (writeRow s (f s.current_item_index) rect).current_row + 1 } := by
  have hcs := writeRow_chain_self f s rect hinv
  obtain ⟨hchain, hself, hle, hcur, hlast⟩ := hinv
  unfold loopInv
  simp only [writeRow_current_row, writeRow_current_item]
  refine ⟨hcs.1, hcs.2, ?_, ?_, ?_⟩
  · rw [writeRow_rows]
    by_cases hr : s.current_row < s.rows.length
    · rw [if_pos hr, List.length_set]
      omega
    · rw [if_neg hr, List.length_append]
      simp
      omega
  · intro rg hrg
    by_cases hr : s.current_row < s.rows.length
    · rw [writeRow_ranges_overwrite f s rect ⟨hchain, hself, hle, hcur, hlast⟩ hr] at hrg
      have hadj := rangeChainOk_adjacent (rangesOf s.rows) s.current_row _ rg hchain
        (inv_row_at f s ⟨hchain, hself, hle, hcur, hlast⟩ hr) hrg
      exact hadj.symm
    · rw [writeRow_rows, if_neg hr, rangesOf_append] at hrg
      have hlen : (rangesOf s.rows
          ++ [(⟨s.current_item_index, s.current_item_index + f s.current_item_index⟩ : NRange)]).length
          ≤ s.current_row + 1 := by
        rw [List.length_append, rangesOf_length]
        simp
        omega
      rw [List.getElem?_eq_none hlen] at hrg
      cases hrg
  · intro hlen2 rg hrg
    by_cases hr : s.current_row < s.rows.length
    · rw [writeRow_ranges_overwrite f s rect ⟨hchain, hself, hle, hcur, hlast⟩ hr] at hrg
      rw [writeRow_rows, if_pos hr, List.length_set] at hlen2
      rw [List.getLast?_eq_getElem?, rangesOf_length] at hrg
      have hidx : s.rows.length - 1 = s.current_row := by omega
      rw [hidx] at hrg
      rw [inv_row_at f s ⟨hchain, hself, hle, hcur, hlast⟩ hr] at hrg
      injection hrg with hrg
      rw [← hrg]
    · rw [writeRow_rows, if_neg hr, rangesOf_append] at hrg
      rw [List.getLast?_concat] at hrg
      injection hrg with hrg
      rw [← hrg]

lemma loopBody_done_chain (f : Nat → Nat) (rects : Nat → Rect) (length : Nat) (visBot : Rat)
    (s s1 : LoopState) (hinv : loopInv f s)
    (h : loopBody (callbackOf f rects) length visBot s = LoopStep.done s1) :
    rangeChainOk (rangesOf s1.rows) = true ∧ rangeSelfOk f (rangesOf s1.rows) = true := by
  simp only [loopBody] at h
  by_cases hlt : s.current_item_index < length
  · rw [if_pos hlt] at h
    by_cases hbr : visBot < ((callbackOf f rects) s.current_item_index).2.maxY
    · rw [if_pos hbr] at h
      injection h with h
      rw [← h]
      exact writeRow_chain_self f s _ hinv
    · rw [if_neg hbr] at h
      cases h
  · rw [if_neg hlt] at h
    injection h with h
    rw [← h]
    exact ⟨hinv.1, hinv.2.1⟩

lemma loopBody_next_loopInv (f : Nat → Nat) (rects : Nat → Rect) (length : Nat) (visBot : Rat)
    (s s1 : LoopState) (hinv : loopInv f s)
    (h : loopBody (callbackOf f rects) length visBot s = LoopStep.next s1) :
    loopInv f s1 := by
  simp only [loopBody] at h
  by_cases hlt : s.current_item_index < length
  · rw [if_pos hlt] at h
    by_cases hbr : visBot < ((callbackOf f rects) s.current_item_index).2.maxY
    · rw [if_pos hbr] at h
      cases h
    · rw [if_neg hbr] at h
      injection h with h
      rw [← h]
      exact writeRow_next_inv f s _ hinv
  · rw [if_neg hlt] at h
    cases h

lemma measureLoop_inv (f : Nat → Nat) (rects : Nat → Rect) (length : Nat) (visBot : Rat) :
    ∀ (fuel : Nat) (s s1 : LoopState), loopInv f s →
      measureLoop (callbackOf f rects) length visBot fuel s = some s1 →
      rangeChainOk (rangesOf s1.rows) = true ∧ rangeSelfOk f (rangesOf s1.rows) = true := by
  intro fuel
  induction fuel with
  | zero => intro s s1 _ h; cases h
  | succ n ih =>
    intro s s1 hinv h
    rw [measureLoop] at h
    rcases hbody : loopBody (callbackOf f rects) length visBot s with s2 | s2
    · rw [hbody] at h
      injection h with h
      rw [← h]
      exact loopBody_done_chain f rects length visBot s s2 hinv hbody
    · rw [hbody] at h
      exact ih s2 s1 (loopBody_next_loopInv f rects length visBot s s2 hinv hbody) h

lemma start_loopInv (f : Nat → Nat) (v1 : VirtualList) (visTop : Rat)
    (hchain : rangeChainOk (rangesOf v1.rows) = true)
    (hself : rangeSelfOk f (rangesOf v1.rows) = true) :
    loopInv f
      { rows := v1.rows
        average_row_size := v1.average_row_size
        average_items_per_row := v1.average_items_per_row
        last_known_row_index := v1.last_known_row_index
        current_row := findStartRow v1.rows visTop (v1.last_known_row_index.getD 0)
        current_item_index := itemStartIndex v1.rows
          (findStartRow v1.rows visTop (v1.last_known_row_index.getD 0)) } := by
  unfold loopInv
  cases hrow : v1.rows[findStartRow v1.rows visTop (v1.last_known_row_index.getD 0)]? with
  | some row =>
    have hlt : findStartRow v1.rows visTop (v1.last_known_row_index.getD 0) < v1.rows.length := by
      rw [List.getElem?_eq_some] at hrow
      exact hrow.1
    refine ⟨hchain, hself, Nat.le_of_lt hlt, ?_, ?_⟩
    · intro rg hrg
      rw [rangesOf, List.getElem?_map, hrow, Option.map_some'] at hrg
      injection hrg with hrg
      rw [← hrg, itemStartIndex, hrow]
      rfl
    · intro hj2 rg hrg
      have hj2a : findStartRow v1.rows visTop (v1.last_known_row_index.getD 0)
          = v1.rows.length := hj2
      exact absurd hj2a (by omega)
  | none =>
    have hj0 : findStartRow v1.rows visTop (v1.last_known_row_index.getD 0) = 0 :=
      findStartRow_none_eq_zero v1.rows visTop _ hrow
    have hnil : v1.rows = [] := by
      cases hv : v1.rows with
      | nil => rfl
      | cons x t =>
        rw [hj0, hv] at hrow
        simp at hrow
    refine ⟨hchain, hself, ?_, ?_, ?_⟩
    · rw [hj0]
      exact Nat.zero_le _
    · intro rg hrg
      rw [hnil] at hrg
      simp [rangesOf] at hrg
    · intro hj2 rg hrg
      rw [hnil] at hrg
      simp [rangesOf] at hrg

lemma layout_preserves_chain (f : Nat → Nat) (rects : Nat → Rect) (v : VirtualList)
    (width visTop visBot : Rat) (length fuel : Nat) (r : LayoutOutcome)
    (hchain : rangeChainOk (rangesOf v.rows) = true)
    (hself : rangeSelfOk f (rangesOf v.rows) = true)
    (h : v.ui_custom_layout width visTop visBot length (callbackOf f rects) fuel = some r) :
    rangeChainOk (rangesOf r.state.rows) = true
      ∧ rangeSelfOk f (rangesOf r.state.rows) = true := by
  obtain ⟨s, hs, hr⟩ := layout_destruct v width visTop visBot length (callbackOf f rects) fuel r h
  have hv1c : rangeChainOk (rangesOf (invalidateIfWidthChanged v width).rows) = true := by
    rcases invalidate_rows_cases v width with h1 | h1
    · rw [h1]; exact hchain
    · rw [h1]; rfl
  have hv1s : rangeSelfOk f (rangesOf (invalidateIfWidthChanged v width).rows) = true := by
    rcases invalidate_rows_cases v width with h1 | h1
    · rw [h1]; exact hself
    · rw [h1]; rfl
  have hinv := start_loopInv f (invalidateIfWidthChanged v width) visTop hv1c hv1s
  have hfin := measureLoop_inv f rects length visBot fuel _ s hinv hs
  subst hr
  simpa [finishLayout] using hfin

lemma runCalls_chain (f : Nat → Nat) :
    ∀ (calls : List CallInput) (v v1 : VirtualList),
      rangeChainOk (rangesOf v.rows) = true → rangeSelfOk f (rangesOf v.rows) = true →
      runCalls f calls v = some v1 →
      rangeChainOk (rangesOf v1.rows) = true ∧ rangeSelfOk f (rangesOf v1.rows) = true := by
  intro calls
  induction calls with
  | nil =>
    intro v v1 hc hs h
    rw [runCalls] at h
    injection h with h
    rw [← h]
    exact ⟨hc, hs⟩
  | cons c rest ih =>
    intro v v1 hc hs h
    rw [runCalls] at h
    cases hcall : v.ui_custom_layout c.width c.visTop c.visBot c.length (callbackOf f c.rects) c.fuel with
    | none =>
      rw [hcall] at h
      cases h
    | some r =>
      rw [hcall] at h
      have hnext := layout_preserves_chain f c.rects v c.width c.visTop c.visBot c.length c.fuel r hc hs hcall
      exact ih r.state v1 hnext.1 hnext.2 h

/-- Claim C3 counterexample: two calls with the same width 100 and callbacks
returning positive counts (5 then 3) leave the cache with adjacent rows
`0..3` and `5..10`: a gap, because the second call overwrites row 0 with a
smaller count and breaks before revisiting row 1. -/
theorem C3_partition_counterexample :
    (VirtualList.ui_custom_layout VirtualList.new 100 0 50 20 c3cb1 10).isSome = true
      ∧ (VirtualList.ui_custom_layout c3run1.state 100 0 50 20 c3cb2 10).isSome = true
      ∧ c3run1.state.rows.map (fun row => row.range) = [⟨0, 5⟩, ⟨5, 10⟩]
      ∧ c3run2.state.rows.map (fun row => row.range) = [⟨0, 3⟩, ⟨5, 10⟩]
      ∧ chainOk c3run2.state.rows = false := by
  decide

/-- Claim C3 (amended): after any sequence of `ui_custom_layout` calls with a
constant container width, starting from `VirtualList::new`, whose render
callbacks all draw their item counts from one fixed function of the item
index (rectangles may vary freely), the cached rows partition the covered
items: every pair of adjacent cached rows satisfies
`rows[i].range.end == rows[i+1].range.start`. -/
theorem C3_partition_amended (f : Nat → Nat) (w : Rat) (calls : List CallInput)
    (v1 : VirtualList) (_hw : ∀ c ∈ calls, c.width = w)
    (h : runCalls f calls VirtualList.new = some v1) :
    chainOk v1.rows = true :=
  (runCalls_chain f calls VirtualList.new v1 rfl rfl h).1

theorem C3_partition_amended_witness :
    chainOk ((runCalls (fun _ => 1) [cW] VirtualList.new).getD VirtualList.new).rows = true :=
  C3_partition_amended (fun _ => 1) 100 [cW]
    ((runCalls (fun _ => 1) [cW] VirtualList.new).getD VirtualList.new)
    (by
      intro c hc
      rw [List.mem_singleton] at hc
      rw [hc]
      rfl)
    rfl
